import Mathlib

/-!
Shallow embedding of `q2_feature_classifier/_classifier.py`.

Python values that can appear in a classifier specification (the result of
`json.loads`, or the literal spec dicts in `_specific_fitters`) are modelled
by the mutual inductive `JVal`/`JArr`/`JObj` below.  Python dicts are
association lists in insertion order (Python ≥ 3.7 semantics; keys produced
by `json.loads` are unique, and dict assignment to an existing key keeps its
position).

External calls — `json.loads`, `importlib.import_module`/`getattr`,
`fit_pipeline`, `predict`, `inspect.signature` of a loaded class — are
parameters of the embedded functions: the repository treats them as opaque
library calls and never inspects their internals.  `json.dumps` is
implemented concretely (its output is data the synthesized signatures
contain), except for the float case, whose textual repr is a parameter.
Fallible Python code is embedded in `Except PyErr`.
-/

namespace Q2FC

mutual

inductive JVal : Type where
  | null : JVal
  | bool (b : Bool) : JVal
  | int (n : Int) : JVal
  | float (q : Rat) : JVal
  | str (s : String) : JVal
  | arr (xs : JArr) : JVal
  | obj (kvs : JObj) : JVal
  deriving DecidableEq

inductive JArr : Type where
  | nil : JArr
  | cons (v : JVal) (tl : JArr) : JArr
  deriving DecidableEq

inductive JObj : Type where
  | nil : JObj
  | cons (k : String) (v : JVal) (tl : JObj) : JObj
  deriving DecidableEq

end

def JArr.toList : JArr → List JVal
  | .nil => []
  | .cons v tl => v :: tl.toList

def JArr.ofList : List JVal → JArr
  | [] => .nil
  | v :: tl => .cons v (JArr.ofList tl)

def JObj.toList : JObj → List (String × JVal)
  | .nil => []
  | .cons k v tl => (k, v) :: tl.toList

def JObj.ofList : List (String × JVal) → JObj
  | [] => .nil
  | (k, v) :: tl => .cons k v (JObj.ofList tl)

/-- Dict lookup (`d[k]` / `d.get(k)`); keys are unique so the first hit is
the only one. -/
def JObj.lookup : JObj → String → Option JVal
  | .nil, _ => none
  | .cons k v tl, key => if k = key then some v else tl.lookup key

def JObj.hasKey (o : JObj) (key : String) : Bool :=
  (o.lookup key).isSome

/-- Dict assignment `d[k] = v`: replaces in place when the key exists,
appends otherwise (insertion-order semantics). -/
def JObj.assign : JObj → String → JVal → JObj
  | .nil, key, v => .cons key v .nil
  | .cons k w tl, key, v =>
      if k = key then .cons k v tl else .cons k w (tl.assign key v)

/-- Lookup in a plain association list with string keys. -/
def lookupStr {α : Type} : List (String × α) → String → Option α
  | [], _ => none
  | (k, v) :: tl, key => if k = key then some v else lookupStr tl key

/-- Python exceptions that the embedded fragment can raise.  The module
defines no exception class of its own; every constructor here names a
built-in or library exception type. -/
inductive PyErr : Type where
  | jsonDecodeError (msg : String) : PyErr
  | typeError (msg : String) : PyErr
  | keyError (k : String) : PyErr
  | valueError (msg : String) : PyErr
  | indexError (msg : String) : PyErr
  | importError (msg : String) : PyErr
  | attributeError (msg : String) : PyErr
  | externalError (msg : String) : PyErr
  deriving DecidableEq

/-- A loaded Python class, identified by its module and attribute name
(the result of `importlib.import_module(module)` + `getattr`). -/
structure ClassRef : Type where
  module : String
  klass : String
  deriving DecidableEq

/-- Split a character list at its last dot: the part before and after it. -/
def splitLastDot : List Char → Option (List Char × List Char)
  | [] => none
  | c :: tl =>
    match splitLastDot tl with
    | some (m, k) => some (c :: m, k)
    | none => if c = Char.ofNat 46 then some ([], tl) else none

/-- `classname.rsplit('.', 1)` followed by unpacking into two names:
`none` when the string has no dot (Python raises ValueError). -/
def rsplitDot (classname : String) : Option (String × String) :=
  match splitLastDot classname.toList with
  | none => none
  | some (m, k) => some (String.mk m, String.mk k)

/-- `_load_class` (lines 26–29): split the dotted name, then import the
module and fetch the attribute.  `env` models
`importlib.import_module` + `getattr`, which may raise. -/
def loadClass (env : String → String → Except PyErr ClassRef)
    (classname : String) : Except PyErr ClassRef :=
  match rsplitDot classname with
  | none => .error (.valueError "not enough values to unpack (expected 2, got 1)")
  | some (m, k) => env m k

/-- A pipeline step instance: the loaded class applied to keyword
arguments (`_load_class(c)(**spec.get(s, {}))`). -/
structure PyInstance : Type where
  cls : ClassRef
  kwargs : List (String × JVal)
  deriving DecidableEq

/-- `sklearn.pipeline.Pipeline(steps)`: the ordered list of named steps. -/
structure SkPipeline : Type where
  steps : List (String × PyInstance)
  deriving DecidableEq

/-- One iteration of the comprehension in `_pipeline_from_spec`
(line 33): unpack the step entry as a pair of strings, load the class and
instantiate it with `spec.get(s, {})`.  Entries of any other shape raise
(unpacking/`**` errors in Python, collapsed to `typeError` here). -/
def stepEntry (env : String → String → Except PyErr ClassRef)
    (o : JObj) (v : JVal) : Except PyErr (String × PyInstance) :=
  match v with
  | .arr (.cons (.str s) (.cons (.str c) .nil)) => do
      let cls ← loadClass env c
      let kw ← match o.lookup s with
        | none => pure ([] : List (String × JVal))
        | some (.obj ko) => pure ko.toList
        | some _ => .error (.typeError "argument after ** must be a mapping")
      pure (s, ⟨cls, kw⟩)
  | _ => .error (.typeError "cannot unpack step entry")

/-- `_pipeline_from_spec` (lines 32–34). -/
def pipelineFromSpec (env : String → String → Except PyErr ClassRef)
    (spec : JVal) : Except PyErr SkPipeline := do
  let o ← match spec with
    | .obj o => pure o
    | _ => .error (.typeError "spec is not a dict")
  let stepsVal ← match o.lookup "steps" with
    | some v => pure v
    | none => .error (.keyError "steps")
  let stepsList ← match stepsVal with
    | .arr a => pure a.toList
    | _ => .error (.typeError "steps is not iterable")
  let steps ← stepsList.mapM (stepEntry env o)
  pure ⟨steps⟩

/-! ### `json.dumps`

Synthesized signatures embed `json.dumps(default)` as exposed default
values, so serialization is implemented concretely (Python's default
settings: `ensure_ascii=True`, separators `", "` and `": "`).  The textual
repr of a float is a parameter; no claim exercises it. -/

def hexDigit (n : Nat) : Char :=
  if n < 10 then Char.ofNat (48 + n) else Char.ofNat (87 + n)

def hex4 (n : Nat) : String :=
  String.mk [hexDigit (n / 4096 % 16), hexDigit (n / 256 % 16),
             hexDigit (n / 16 % 16), hexDigit (n % 16)]

/-- `\uXXXX` escape, with a surrogate pair above the BMP. -/
def uEscape (n : Nat) : String :=
  if n < 65536 then "\\u" ++ hex4 n
  else
    "\\u" ++ hex4 (55296 + (n - 65536) / 1024) ++
    "\\u" ++ hex4 (56320 + (n - 65536) % 1024)

/-- Escape one character as Python's ASCII JSON encoder does: everything
outside the printable ASCII range `0x20`–`0x7e` is `\u`-escaped. -/
def escChar (c : Char) : String :=
  if c = Char.ofNat 34 then "\\\""
  else if c = Char.ofNat 92 then "\\\\"
  else if c = Char.ofNat 10 then "\\n"
  else if c = Char.ofNat 9 then "\\t"
  else if c = Char.ofNat 13 then "\\r"
  else if c = Char.ofNat 8 then "\\b"
  else if c = Char.ofNat 12 then "\\f"
  else if c.toNat < 32 ∨ c.toNat > 126 then uEscape c.toNat
  else String.singleton c

def dumpsStr (s : String) : String :=
  "\"" ++ String.join (s.toList.map escChar) ++ "\""

mutual

def JVal.dumps (floatRepr : Rat → String) : JVal → String
  | .null => "null"
  | .bool true => "true"
  | .bool false => "false"
  | .int n => toString n
  | .float q => floatRepr q
  | .str s => dumpsStr s
  | .arr a => "[" ++ JArr.dumps floatRepr a ++ "]"
  | .obj o => "\x7b" ++ JObj.dumps floatRepr o ++ "\x7d"

def JArr.dumps (floatRepr : Rat → String) : JArr → String
  | .nil => ""
  | .cons v .nil => JVal.dumps floatRepr v
  | .cons v (.cons w tl) =>
      JVal.dumps floatRepr v ++ ", " ++ JArr.dumps floatRepr (.cons w tl)

def JObj.dumps (floatRepr : Rat → String) : JObj → String
  | .nil => ""
  | .cons k v .nil => dumpsStr k ++ ": " ++ JVal.dumps floatRepr v
  | .cons k v (.cons k2 w tl) =>
      dumpsStr k ++ ": " ++ JVal.dumps floatRepr v ++ ", " ++
      JObj.dumps floatRepr (.cons k2 w tl)

end

/-! ### `fit_classifier` and `classify` -/

/-- The `params` dict built at lines 44–47 (and 139–142): exactly the four
keyword arguments, keyed by their names. -/
def mkParams (word_length : Int) (taxonomy_separator : String)
    (taxonomy_depth : Int) (multioutput : Bool) : List (String × JVal) :=
  [("word_length", .int word_length),
   ("taxonomy_separator", .str taxonomy_separator),
   ("taxonomy_depth", .int taxonomy_depth),
   ("multioutput", .bool multioutput)]

/-- A value stored in the returned classifier record: the params dict or
the fitted pipeline (of abstract type `F`, owned by `fit_pipeline`). -/
inductive RVal (F : Type) : Type where
  | params (p : List (String × JVal)) : RVal F
  | pipe (pl : F) : RVal F
  deriving DecidableEq

/-- `fit_classifier` (lines 37–50).  `jsonLoads`, the import environment and
`fit_pipeline` are the external calls it makes, in that order. -/
def fit_classifier {R T F : Type} (jsonLoads : String → Except PyErr JVal)
    (env : String → String → Except PyErr ClassRef)
    (fit_pipeline : R → T → SkPipeline → List (String × JVal) → Except PyErr F)
    (reference_reads : R) (reference_taxonomy : T)
    (classifier_specification : String) (word_length : Int)
    (taxonomy_separator : String) (taxonomy_depth : Int) (multioutput : Bool) :
    Except PyErr (List (String × RVal F)) := do
  let spec ← jsonLoads classifier_specification
  let pipeline ← pipelineFromSpec env spec
  let params := mkParams word_length taxonomy_separator taxonomy_depth multioutput
  let fitted ← fit_pipeline reference_reads reference_taxonomy pipeline params
  pure [("params", .params params), ("pipeline", .pipe fitted)]

/-- A `pandas.Series` as `classify` uses it: values, index, and the two
names it assigns. -/
structure PdSeries (V I : Type) : Type where
  values : List V
  index : List I
  name : Option String
  indexName : Option String
  deriving DecidableEq

/-- `classifier[k]` on the returned record: KeyError when absent. -/
def recordGet {F : Type} (d : List (String × RVal F)) (k : String) :
    Except PyErr (RVal F) :=
  match lookupStr d k with
  | some v => pure v
  | none => .error (.keyError k)

/-- `classify` (lines 77–83).  `predict` is the external call; the record
entries must hold a pipeline and a params dict (in Python an ill-typed
record would instead fail inside `predict` or at `**`-unpacking). -/
def classify {R F I V : Type}
    (predict : R → F → List (String × JVal) → Except PyErr (List I × List V))
    (reads : R) (classifier : List (String × RVal F)) :
    Except PyErr (PdSeries V I) := do
  let plV ← recordGet classifier "pipeline"
  let psV ← recordGet classifier "params"
  let pl ← match plV with
    | .pipe p => pure p
    | _ => .error (.typeError "classifier record holds no pipeline")
  let ps ← match psV with
    | .params p => pure p
    | _ => .error (.typeError "argument after ** must be a mapping")
  let res ← predict reads pl ps
  pure { values := res.2, index := res.1,
         name := some "taxonomy", indexName := some "Feature ID" }

/-! ### The kwargs-decoding step of `generic_fitter` -/

/-- The exception classes named by the `except` clause at line 135:
`json.JSONDecodeError` and `TypeError`. -/
def jsonCatchable : PyErr → Bool
  | .jsonDecodeError _ => true
  | .typeError _ => true
  | _ => false

/-- One iteration of the loop at lines 132–136: try to JSON-decode the
value; keep the original when that raises `JSONDecodeError` or
`TypeError`.  `json.loads` of a non-string raises `TypeError`, which the
clause catches, so non-strings are kept as they are. -/
def loadParam (jsonLoads : String → Except PyErr JVal) (v : JVal) :
    Except PyErr JVal :=
  match v with
  | .str s =>
      match jsonLoads s with
      | .ok r => .ok r
      | .error e => if jsonCatchable e then .ok v else .error e
  | _ => .ok v

/-! ### Subscript helpers for `spec['steps'][-1]` -/

def specSteps (spec : JVal) : Except PyErr (List JVal) := do
  let o ← match spec with
    | .obj o => pure o
    | _ => .error (.typeError "spec is not a dict")
  match o.lookup "steps" with
  | some (.arr a) => pure a.toList
  | some _ => .error (.typeError "steps is not a list")
  | none => .error (.keyError "steps")

def specLastStep (spec : JVal) : Except PyErr JVal := do
  let steps ← specSteps spec
  match steps.getLast? with
  | some l => pure l
  | none => .error (.indexError "list index out of range")

def arrIndex (v : JVal) (i : Nat) : Except PyErr JVal :=
  match v with
  | .arr a =>
      match a.toList.get? i with
      | some w => pure w
      | none => .error (.indexError "list index out of range")
  | _ => .error (.typeError "object is not subscriptable")

def asStrE (v : JVal) : Except PyErr String :=
  match v with
  | .str s => pure s
  | _ => .error (.typeError "expected a string")

/-- `spec['steps'][-1][0]`, the final step's name (line 137). -/
def specLastStepName (spec : JVal) : Except PyErr String := do
  asStrE (← arrIndex (← specLastStep spec) 0)

/-- The loop at lines 132–136 over the keyword arguments: each value is
JSON-decoded by `loadParam`, keys and order are kept. -/
def decodeKwargs (jsonLoads : String → Except PyErr JVal)
    (kwargs : List (String × JVal)) : Except PyErr (List (String × JVal)) :=
  kwargs.mapM (fun kv => do
    let w ← loadParam jsonLoads kv.2
    pure (kv.1, w))

/-- `generic_fitter` (lines 126–145), as a function of the captured `spec`
and its keyword arguments.  `copy.deepcopy(spec)` is the identity on
values; its aliasing content is settled separately by the heap model. -/
def generic_fitter {R T F : Type} (jsonLoads : String → Except PyErr JVal)
    (env : String → String → Except PyErr ClassRef)
    (fit_pipeline : R → T → SkPipeline → List (String × JVal) → Except PyErr F)
    (spec : JVal) (reference_reads : R) (reference_taxonomy : T)
    (word_length : Int) (taxonomy_separator : String) (taxonomy_depth : Int)
    (multioutput : Bool) (kwargs : List (String × JVal)) :
    Except PyErr (List (String × RVal F)) := do
  let kwargs ← decodeKwargs jsonLoads kwargs
  let lastName ← specLastStepName spec
  let this_spec ← match spec with
    | .obj o => pure (JVal.obj (o.assign lastName (.obj (JObj.ofList kwargs))))
    | _ => .error (.typeError "spec is not a dict")
  let pipeline ← pipelineFromSpec env this_spec
  let params := mkParams word_length taxonomy_separator taxonomy_depth multioutput
  let fitted ← fit_pipeline reference_reads reference_taxonomy pipeline params
  pure [("params", .params params), ("pipeline", .pipe fitted)]

/-! ### Signature synthesis (`_register_fitter`, lines 107–154) -/

/-- `inspect.Parameter.kind`. -/
inductive PKind : Type where
  | positionalOnly : PKind
  | positionalOrKeyword : PKind
  | varPositional : PKind
  | keywordOnly : PKind
  | varKeyword : PKind
  deriving DecidableEq

/-- A constructor parameter's default as the loop at lines 115–117 sees it:
either a callable (which includes `inspect.Parameter.empty` — the class
`inspect._empty`, itself callable — so parameters without a default are
skipped too), or a plain value. -/
inductive CDefault : Type where
  | callable : CDefault
  | val (v : JVal) : CDefault
  deriving DecidableEq

/-- One parameter of the final step's constructor, as reported by
`inspect.signature` on the loaded class. -/
structure CParam : Type where
  name : String
  kind : PKind
  default : CDefault
  deriving DecidableEq

/-- Python annotations occurring in the synthesized signature: the four
`type_map` keys plus the annotations of `generic_fitter`'s own leading
parameters. -/
inductive PyAnn : Type where
  | int : PyAnn
  | float : PyAnn
  | bool : PyAnn
  | str : PyAnn
  | generator : PyAnn
  | series : PyAnn
  deriving DecidableEq

/-- One `inspect.Parameter` of the synthesized signature (`default = none`
is `Parameter.empty`). -/
structure SigParam : Type where
  name : String
  kind : PKind
  default : Option JVal
  annot : PyAnn
  deriving DecidableEq

/-- The qiime parameter types `Int`, `Float`, `Bool`, `Str`. -/
inductive QType : Type where
  | int : QType
  | float : QType
  | bool : QType
  | str : QType
  deriving DecidableEq

/-- `annotation = type(default) if type(default) in type_map else str`
(line 119): the exact runtime type when it is one of the four mapped
types, `str` otherwise. -/
def annOf : JVal → PyAnn
  | .int _ => .int
  | .float _ => .float
  | .bool _ => .bool
  | .str _ => .str
  | _ => .str

/-- `type_map.get(annotation, Str)` (line 123). -/
def qtypeOfAnn : PyAnn → QType
  | .int => .int
  | .float => .float
  | .bool => .bool
  | _ => .str

/-- One iteration of the loop at lines 115–124, producing the new
`inspect.Parameter` (or `none` for the `continue` on a callable default):
the effective default is the spec's override when present, else the
constructor's own; the exposed default is `json.dumps` of it whenever the
annotation is `str`. -/
def exposeParam (floatRepr : Rat → String) (defaults : List (String × JVal))
    (p : CParam) : Option SigParam :=
  match p.default with
  | .callable => none
  | .val pd =>
      let d := (lookupStr defaults p.name).getD pd
      let ann := annOf d
      let exposed := if ann = PyAnn.str then JVal.str (JVal.dumps floatRepr d) else d
      some ⟨p.name, p.kind, some exposed, ann⟩

/-- `signature_params` accumulated by the loop, in constructor order. -/
def signatureParams (floatRepr : Rat → String)
    (defaults : List (String × JVal)) (sig : List CParam) : List SigParam :=
  sig.filterMap (exposeParam floatRepr defaults)

/-- Dict assignment on an association list: replace in place when the key
exists, append otherwise. -/
def dictAssign {α : Type} (d : List (String × α)) (k : String) (v : α) :
    List (String × α) :=
  if d.any (fun kv => kv.1 = k) then
    d.map (fun kv => if kv.1 = k then (k, v) else kv)
  else d ++ [(k, v)]

/-- The `parameters` dict built by `parameters[param_name] = ...` inside
the loop (line 123). -/
def loopParameters (floatRepr : Rat → String)
    (defaults : List (String × JVal)) (sig : List CParam) :
    List (String × QType) :=
  sig.foldl (fun acc p =>
    match exposeParam floatRepr defaults p with
    | none => acc
    | some sp => dictAssign acc sp.name (qtypeOfAnn sp.annot)) []

/-- `_fitter_parameters` (lines 52–53). -/
def fitterParameters : List (String × QType) :=
  [("word_length", .int), ("taxonomy_separator", .str),
   ("taxonomy_depth", .int), ("multioutput", .bool)]

/-- `d.update(e)`: assign each entry of `e` into `d` in order. -/
def dictUpdate {α : Type} (d e : List (String × α)) : List (String × α) :=
  e.foldl (fun acc kv => dictAssign acc kv.1 kv.2) d

/-- `list(inspect.signature(generic_fitter).parameters.values())[:-1]`
(lines 148–149): `generic_fitter`'s own parameters with the trailing
`**kwargs` dropped, with their Python defaults and annotations. -/
def genericBaseParams : List SigParam :=
  [⟨"reference_reads", .positionalOrKeyword, none, .generator⟩,
   ⟨"reference_taxonomy", .positionalOrKeyword, none, .series⟩,
   ⟨"word_length", .positionalOrKeyword, some (.int 8), .int⟩,
   ⟨"taxonomy_separator", .positionalOrKeyword, some (.str ""), .str⟩,
   ⟨"taxonomy_depth", .positionalOrKeyword, some (.int (-1)), .int⟩,
   ⟨"multioutput", .positionalOrKeyword, some (.bool false), .bool⟩]

/-- Everything `_register_fitter` computes before registering: the final
step's class name and step name, the overriding defaults
(`spec[spec['steps'][-1][0]]`), the loop's `signature_params`, the full
parameter list installed as `generic_fitter.__signature__`, and the
`parameters` dict passed to both registrations. -/
structure FitterSynth : Type where
  className : String
  lastName : String
  defaults : List (String × JVal)
  sigParams : List SigParam
  newParams : List SigParam
  qparams : List (String × QType)
  deriving DecidableEq

/-- Lines 107–154 of `_register_fitter`, with `sigOf` modelling
`inspect.signature` on the loaded class.  Evaluation order follows the
source: `class_name` from `spec['steps'][-1][1]`, then `defaults` from
`spec[spec['steps'][-1][0]]` (KeyError when the last step's name is not a
key; `.get` on a non-dict raises AttributeError), then the class load and
introspection. -/
def synthFitter (floatRepr : Rat → String)
    (env : String → String → Except PyErr ClassRef)
    (sigOf : ClassRef → Except PyErr (List CParam)) (spec : JVal) :
    Except PyErr FitterSynth := do
  let last ← specLastStep spec
  let className ← asStrE (← arrIndex last 1)
  let lastName ← asStrE (← arrIndex last 0)
  let o ← match spec with
    | .obj o => pure o
    | _ => .error (.typeError "spec is not a dict")
  let defaults ← match o.lookup lastName with
    | some (.obj d) => pure d.toList
    | some _ => .error (.attributeError "object has no attribute get")
    | none => .error (.keyError lastName)
  let cls ← loadClass env className
  let sig ← sigOf cls
  let sp := signatureParams floatRepr defaults sig
  pure { className := className, lastName := lastName, defaults := defaults,
         sigParams := sp, newParams := genericBaseParams ++ sp,
         qparams := dictUpdate (loopParameters floatRepr defaults sig)
                      fitterParameters }

/-! ### Registration (`plugin.methods.register_function`) -/

inductive InputType : Type where
  | sequence : InputType
  | pairedEnd : InputType
  deriving DecidableEq

/-- One call to `plugin.methods.register_function` for a synthesized
fitter: the registered function name, its input variant, the `parameters`
dict, outputs, display name and description. -/
structure Registration : Type where
  fname : String
  inputs : InputType
  parameters : List (String × QType)
  outputs : List String
  title : String
  description : String
  deriving DecidableEq

/-- `_register_fitter` (lines 107–176): the registrations it performs, in
order (lines 156–165 and 166–176). -/
def registerFitter (floatRepr : Rat → String)
    (env : String → String → Except PyErr ClassRef)
    (sigOf : ClassRef → Except PyErr (List CParam))
    (name : String) (spec : JVal) : Except PyErr (List Registration) := do
  let fs ← synthFitter floatRepr env sigOf spec
  pure [{ fname := "fit_classifier_" ++ name, inputs := .sequence,
          parameters := fs.qparams, outputs := ["classifier"],
          title := "Train the " ++ fs.className ++ " classifier.",
          description := "Create a " ++ fs.className ++ " classifier for reads" },
        { fname := "fit_classifier_" ++ name ++ "_paired_end",
          inputs := .pairedEnd,
          parameters := fs.qparams, outputs := ["classifier"],
          title := "Train the " ++ fs.className ++ " classifier.",
          description := "Create a " ++ fs.className ++
                         " classifier for paired-end reads" }]

/-- The loop at lines 178–179: register every entry of
`_specific_fitters` (defined in `_skl.py`, outside this module). -/
def registerAllFitters (floatRepr : Rat → String)
    (env : String → String → Except PyErr ClassRef)
    (sigOf : ClassRef → Except PyErr (List CParam))
    (fitters : List (String × JVal)) : Except PyErr (List Registration) := do
  let rs ← fitters.mapM (fun nf => registerFitter floatRepr env sigOf nf.1 nf.2)
  pure rs.flatten

/-! ### Heap model for `copy.deepcopy` (line 131)

`generic_fitter` touches its closed-over `spec` object in exactly two
statements: `this_spec = copy.deepcopy(spec)` and
`this_spec[spec['steps'][-1][0]] = kwargs` (line 137); everything else
only reads it.  To express the aliasing content of the deepcopy, dict
objects live in a heap of cells addressed by allocation index; the
deepcopy allocates a fresh cell holding an equal value, and the
subscript-assignment mutates the cell it is applied to. -/

abbrev Heap : Type := List JObj

def Heap.read (h : Heap) (a : Nat) : Option JObj := h[a]?

/-- `copy.deepcopy` on the dict at address `a`: allocate a fresh cell with
an equal value and return its address. -/
def heapDeepcopy (h : Heap) (a : Nat) : Option (Heap × Nat) :=
  match h[a]? with
  | some d => some (h ++ [d], h.length)
  | none => none

/-- The two statements of `generic_fitter` that involve the captured spec
object: deep-copy it, then assign the decoded kwargs dict under the final
step's name in the copy.  Returns the new heap and the address of
`this_spec`. -/
def genericFitterSpecStep (h : Heap) (specAddr : Nat) (lastName : String)
    (kwargs : JObj) : Option (Heap × Nat) :=
  match heapDeepcopy h specAddr with
  | some (h1, copyAddr) =>
      match h1[copyAddr]? with
      | some d => some (h1.set copyAddr (d.assign lastName (.obj kwargs)), copyAddr)
      | none => none
  | none => none

/-- A sequence of invocations of the same synthesized fitter, each
performing its spec-handling statements against the heap (an invocation
whose deepcopy fails leaves the heap unchanged). -/
def runInvocations (h : Heap) (specAddr : Nat) :
    List (String × JObj) → Heap
  | [] => h
  | c :: rest =>
      match genericFitterSpecStep h specAddr c.1 c.2 with
      | some hp => runInvocations hp.1 specAddr rest
      | none => runInvocations h specAddr rest

/-! ### Definitions from the claims, and concrete objects used by
witnesses and counterexamples -/

deriving instance DecidableEq for Except

/-- From the claim's words (C2). -/
def claimStep (env : String → String → Except PyErr ClassRef) (o : JObj)
    (v : JVal) : Option (String × PyInstance) :=
  match v with
  | .arr (.cons (.str s) (.cons (.str c) .nil)) =>
      match loadClass env c with
      | .ok cls =>
          if o.hasKey s then
            match o.lookup s with
            | some (.obj ko) => some (s, ⟨cls, ko.toList⟩)
            | _ => none
          else some (s, ⟨cls, []⟩)
      | .error _ => none
  | _ => none

/-! ### Concrete objects for witnesses and counterexamples -/

def floatRepr0 : Rat → String := fun _ => "0.0"

def env0 : String → String → Except PyErr ClassRef := fun m k => .ok ⟨m, k⟩

def sigOf0 : ClassRef → Except PyErr (List CParam) :=
  fun _ => .ok [⟨"opt", .positionalOrKeyword, .val (.str "auto")⟩]

/-- The spec dict `{"steps": [["cls", "m.C"]], "cls": {}}`. -/
def o0 : JObj :=
  .cons "steps"
    (.arr (.cons (.arr (.cons (.str "cls") (.cons (.str "m.C") .nil))) .nil))
    (.cons "cls" (.obj .nil) .nil)

def spec0 : JVal := .obj o0

/-- The synthesized-signature data for `spec0` under `env0`/`sigOf0`: the
constructor parameter `opt` has the str default `"auto"`, so its exposed
default is the JSON encoding `"\"auto\""`. -/
def c1Synth : FitterSynth :=
  { className := "m.C", lastName := "cls", defaults := [],
    sigParams := [⟨"opt", .positionalOrKeyword, some (.str "\"auto\""), .str⟩],
    newParams := genericBaseParams ++
      [⟨"opt", .positionalOrKeyword, some (.str "\"auto\""), .str⟩],
    qparams := [("opt", .str), ("word_length", .int),
                ("taxonomy_separator", .str), ("taxonomy_depth", .int),
                ("multioutput", .bool)] }

/-- `["b", "y.B"]`, a shared final step entry. -/
def pairB : JVal := .arr (.cons (.str "b") (.cons (.str "y.B") .nil))

/-- The steps list `[["a", "x.A"], ["b", "y.B"]]`. -/
def a31 : JArr :=
  .cons (.arr (.cons (.str "a") (.cons (.str "x.A") .nil))) (.cons pairB .nil)

/-- The steps list `[["c", "z.C"], ["b", "y.B"]]`. -/
def a32 : JArr :=
  .cons (.arr (.cons (.str "c") (.cons (.str "z.C") .nil))) (.cons pairB .nil)

/-- `{"steps": [["a", "x.A"], ["b", "y.B"]], "a": {"z": 1}, "b": {}}`. -/
def o31 : JObj :=
  .cons "steps" (.arr a31)
    (.cons "a" (.obj (.cons "z" (.int 1) .nil)) (.cons "b" (.obj .nil) .nil))

/-- `{"extra": null, "steps": [["c", "z.C"], ["b", "y.B"]], "b": {}}`. -/
def o32 : JObj :=
  .cons "extra" .null
    (.cons "steps" (.arr a32) (.cons "b" (.obj .nil) .nil))

def c4params : List (String × QType) :=
  [("opt", .str), ("word_length", .int), ("taxonomy_separator", .str),
   ("taxonomy_depth", .int), ("multioutput", .bool)]

def c4reg1 : Registration :=
  { fname := "fit_classifier_x", inputs := .sequence, parameters := c4params,
    outputs := ["classifier"], title := "Train the m.C classifier.",
    description := "Create a m.C classifier for reads" }

def c4reg2 : Registration :=
  { fname := "fit_classifier_x_paired_end", inputs := .pairedEnd,
    parameters := c4params, outputs := ["classifier"],
    title := "Train the m.C classifier.",
    description := "Create a m.C classifier for paired-end reads" }

def jl0 : String → Except PyErr JVal :=
  fun _ => .error (.jsonDecodeError "Expecting value: line 1 column 1 (char 0)")

def fp0 : Unit → Unit → SkPipeline → List (String × JVal) → Except PyErr Unit :=
  fun _ _ _ _ => .ok ()

def kwObj : JObj := JObj.ofList [("z", .int 1)]

def c7h2 : Heap := [o0, JObj.assign o0 "cls" (.obj kwObj)]

def jlSpec : String → Except PyErr JVal := fun _ => .ok spec0

def jl9 : String → Except PyErr JVal :=
  fun s => if s = "null" then .ok .null
           else .error (.jsonDecodeError "Expecting value")

def p9 : CParam := ⟨"opt", .positionalOrKeyword, .val .null⟩

def predict0 : Unit → Unit → List (String × JVal) →
    Except PyErr (List String × List String) :=
  fun _ _ _ => .ok (["s1"], ["taxA"])

def classifier0 : List (String × RVal Unit) :=
  [("params", .params (mkParams 8 "" (-1) false)), ("pipeline", .pipe ())]

/-! ### Theorems -/

@[simp]
theorem exceptOkBind {ε α β : Type} (a : α) (f : α → Except ε β) :
    (Except.ok a >>= f) = f a := rfl

@[simp]
theorem exceptErrorBind {ε α β : Type} (e : ε) (f : α → Except ε β) :
    ((Except.error e : Except ε α) >>= f) = Except.error e := rfl

@[simp]
theorem exceptPureEqOk {ε α : Type} (a : α) :
    (pure a : Except ε α) = Except.ok a := rfl

theorem stepEntry_of_claimStep (env : String → String → Except PyErr ClassRef)
    (o : JObj) (v : JVal) (p : String × PyInstance)
    (h : claimStep env o v = some p) : stepEntry env o v = .ok p := by
  unfold claimStep at h
  split at h
  case h_2 => exact absurd h (by simp)
  case h_1 s c =>
    unfold stepEntry
    cases hc : loadClass env c with
    | error e => rw [hc] at h; exact absurd h (by simp)
    | ok cls =>
      rw [hc] at h
      simp only at h
      by_cases hk : o.hasKey s
      · rw [if_pos hk] at h
        unfold JObj.hasKey at hk
        cases hl : o.lookup s with
        | none => rw [hl] at hk; simp at hk
        | some w =>
          rw [hl] at h
          cases w with
          | obj ko =>
            simp at h
            simp [hc, hl, ← h]
          | _ => exact absurd h (by simp)
      · rw [if_neg hk] at h
        unfold JObj.hasKey at hk
        cases hl : o.lookup s with
        | some w => rw [hl] at hk; simp at hk
        | none =>
          simp at h
          simp [hc, hl, ← h]

theorem mapM_stepEntry_of_claimStep (env : String → String → Except PyErr ClassRef)
    (o : JObj) : ∀ (vs : List JVal) (l : List (String × PyInstance)),
    vs.mapM (claimStep env o) = some l → vs.mapM (stepEntry env o) = .ok l := by
  intro vs
  induction vs with
  | nil =>
    intro l h
    simp [List.mapM, List.mapM.loop] at h
    subst h
    simp [List.mapM, List.mapM.loop]
  | cons v tl ih =>
    intro l h
    rw [List.mapM_cons] at h ⊢
    cases hv : claimStep env o v with
    | none => rw [hv] at h; simp at h
    | some p =>
      rw [hv] at h
      cases htl : tl.mapM (claimStep env o) with
      | none => rw [htl] at h; simp at h
      | some l2 =>
        rw [htl] at h
        simp at h
        rw [stepEntry_of_claimStep env o v p hv, ih l2 htl]
        simp [← h]

/-- Claim C2: for a specification dict with a `steps` key, the pipeline's
steps are, in the same order, the claim-described pairs (name, instance):
the instance is the loaded class applied to the kwargs `spec[name]` when
`name` is a key of the spec, and to no kwargs otherwise. -/
theorem claim_C2 (env : String → String → Except PyErr ClassRef) (o : JObj)
    (a : JArr) (l : List (String × PyInstance))
    (hsteps : o.lookup "steps" = some (.arr a))
    (hwf : a.toList.mapM (claimStep env o) = some l) :
    pipelineFromSpec env (.obj o) = .ok ⟨l⟩ := by
  unfold pipelineFromSpec
  simp only [exceptPureEqOk, exceptOkBind, hsteps]
  rw [mapM_stepEntry_of_claimStep env o a.toList l hwf]
  rfl

theorem claim_C2_witness :
    pipelineFromSpec env0 spec0 =
      .ok ⟨[("cls", ⟨⟨"m", "C"⟩, []⟩)]⟩ :=
  claim_C2 env0 o0
    (.cons (.arr (.cons (.str "cls") (.cons (.str "m.C") .nil))) .nil)
    [("cls", ⟨⟨"m", "C"⟩, []⟩)] (by decide) (by decide)

theorem asStrE_ok (v : JVal) (s : String) (h : asStrE v = .ok s) :
    v = .str s := by
  cases v <;> simp_all [asStrE]

theorem specSteps_ok_inv (spec : JVal) (steps : List JVal)
    (h : specSteps spec = .ok steps) :
    ∃ o a, spec = JVal.obj o ∧ o.lookup "steps" = some (.arr a) ∧
      a.toList = steps := by
  cases spec <;> simp [specSteps] at h
  case obj o =>
    cases hl : o.lookup "steps" with
    | none => rw [hl] at h; simp at h
    | some v =>
      rw [hl] at h
      cases v with
      | arr a => simp at h; exact ⟨o, a, rfl, hl, h⟩
      | null => simp at h
      | bool b => simp at h
      | int n => simp at h
      | float q => simp at h
      | str s2 => simp at h
      | obj ko => simp at h

theorem specLastStep_ok_inv (spec : JVal) (last : JVal)
    (h : specLastStep spec = .ok last) :
    ∃ steps, specSteps spec = .ok steps ∧ steps.getLast? = some last := by
  unfold specLastStep at h
  cases hs : specSteps spec with
  | error e => rw [hs] at h; simp at h
  | ok steps =>
    rw [hs] at h
    simp only [exceptOkBind] at h
    cases hg : steps.getLast? with
    | none => rw [hg] at h; simp at h
    | some l2 => rw [hg] at h; simp at h; exact ⟨steps, rfl, by rw [hg, h]⟩

theorem synthFitter_ok_inv (floatRepr : Rat → String)
    (env : String → String → Except PyErr ClassRef)
    (sigOf : ClassRef → Except PyErr (List CParam)) (spec : JVal)
    (fs : FitterSynth) (h : synthFitter floatRepr env sigOf spec = .ok fs) :
    ∃ o last cn ln dobj cls sig,
      spec = JVal.obj o ∧
      specLastStep spec = .ok last ∧
      arrIndex last 1 = .ok (.str cn) ∧
      arrIndex last 0 = .ok (.str ln) ∧
      JObj.lookup o ln = some (.obj dobj) ∧
      loadClass env cn = .ok cls ∧
      sigOf cls = .ok sig ∧
      fs = { className := cn, lastName := ln, defaults := dobj.toList,
             sigParams := signatureParams floatRepr dobj.toList sig,
             newParams := genericBaseParams ++
               signatureParams floatRepr dobj.toList sig,
             qparams := dictUpdate (loopParameters floatRepr dobj.toList sig)
               fitterParameters } := by
  unfold synthFitter at h
  cases hls : specLastStep spec with
  | error e => rw [hls] at h; simp at h
  | ok last =>
    rw [hls] at h
    simp only [exceptOkBind] at h
    cases h1 : arrIndex last 1 with
    | error e => rw [h1] at h; simp at h
    | ok v1 =>
      rw [h1] at h
      simp only [exceptOkBind] at h
      cases h1s : asStrE v1 with
      | error e => rw [h1s] at h; simp at h
      | ok cn =>
        rw [h1s] at h
        simp only [exceptOkBind] at h
        cases h0 : arrIndex last 0 with
        | error e => rw [h0] at h; simp at h
        | ok v0 =>
          rw [h0] at h
          simp only [exceptOkBind] at h
          cases h0s : asStrE v0 with
          | error e => rw [h0s] at h; simp at h
          | ok ln =>
            rw [h0s] at h
            simp only [exceptOkBind] at h
            obtain ⟨steps, hsp, -⟩ := specLastStep_ok_inv spec last hls
            obtain ⟨o, a, hobj, hlk, -⟩ := specSteps_ok_inv spec steps hsp
            subst hobj
            simp only [exceptPureEqOk, exceptOkBind] at h
            cases hdl : JObj.lookup o ln with
            | none => rw [hdl] at h; simp at h
            | some dv =>
              rw [hdl] at h
              cases dv with
              | null => simp at h
              | bool b => simp at h
              | int n => simp at h
              | float q => simp at h
              | str s2 => simp at h
              | arr a2 => simp at h
              | obj dobj =>
                simp only [exceptPureEqOk, exceptOkBind] at h
                cases hcl : loadClass env cn with
                | error e => rw [hcl] at h; simp at h
                | ok cls =>
                  rw [hcl] at h
                  simp only [exceptOkBind] at h
                  cases hsg : sigOf cls with
                  | error e => rw [hsg] at h; simp at h
                  | ok sig =>
                    rw [hsg] at h
                    simp only [exceptOkBind, exceptPureEqOk] at h
                    refine ⟨o, last, cn, ln, dobj, cls, sig, rfl, rfl,
                      ?_, ?_, hdl, hcl, hsg, ?_⟩
                    · rw [asStrE_ok v1 cn h1s] at h1; exact h1
                    · rw [asStrE_ok v0 ln h0s] at h0; exact h0
                    · cases h; rfl

theorem mem_signatureParams (floatRepr : Rat → String)
    (defaults : List (String × JVal)) (sig : List CParam) (p : CParam)
    (pd : JVal) (hp : p ∈ sig) (hd : p.default = .val pd) :
    SigParam.mk p.name p.kind
      (some (if annOf ((lookupStr defaults p.name).getD pd) = PyAnn.str
             then JVal.str (JVal.dumps floatRepr ((lookupStr defaults p.name).getD pd))
             else (lookupStr defaults p.name).getD pd))
      (annOf ((lookupStr defaults p.name).getD pd)) ∈
      signatureParams floatRepr defaults sig := by
  unfold signatureParams
  rw [List.mem_filterMap]
  exact ⟨p, hp, by simp [exposeParam, hd]⟩

/-- Claim C1 (amended): for every pipeline specification accepted by
`_register_fitter`, and for every parameter of the final step's
constructor whose own default is a non-callable value (parameters with
callable — including missing — defaults are skipped), the synthesized
signature contains a parameter of the same name and kind whose effective
default is the specification's per-step override when present and the
constructor's own default otherwise, whose annotation is the default's
type when that type is int, float, bool or str, and str otherwise, and
whose exposed default is the effective default itself when the annotation
is int, float or bool, and the JSON encoding (`json.dumps`) of the
effective default when the annotation is str. -/
theorem claim_C1 (floatRepr : Rat → String)
    (env : String → String → Except PyErr ClassRef)
    (sigOf : ClassRef → Except PyErr (List CParam)) (spec : JVal)
    (fs : FitterSynth) (cls : ClassRef) (sig : List CParam)
    (hfs : synthFitter floatRepr env sigOf spec = .ok fs)
    (hcls : loadClass env fs.className = .ok cls)
    (hsig : sigOf cls = .ok sig) :
    fs.newParams = genericBaseParams ++ signatureParams floatRepr fs.defaults sig ∧
    ∀ p ∈ sig, ∀ pd, p.default = CDefault.val pd →
      SigParam.mk p.name p.kind
        (some (if annOf ((lookupStr fs.defaults p.name).getD pd) = PyAnn.str
               then JVal.str (JVal.dumps floatRepr ((lookupStr fs.defaults p.name).getD pd))
               else (lookupStr fs.defaults p.name).getD pd))
        (annOf ((lookupStr fs.defaults p.name).getD pd)) ∈ fs.newParams := by
  obtain ⟨o, last, cn, ln, dobj, cls2, sig2, hobj, hls, h1, h0, hdl, hcl2,
    hsg2, hfs2⟩ := synthFitter_ok_inv floatRepr env sigOf spec fs hfs
  subst hfs2
  simp only at hcls
  rw [hcl2] at hcls
  cases hcls
  rw [hsg2] at hsig
  cases hsig
  refine ⟨rfl, ?_⟩
  intro p hp pd hd
  simp only [List.mem_append]
  exact Or.inr (mem_signatureParams floatRepr dobj.toList sig p pd hp hd)

/-- Claim C1 counterexample: for the spec `{"steps": [["cls", "m.C"]],
"cls": {}}` whose final-step constructor has the single parameter
`opt='auto'`, the synthesized signature contains no parameter named `opt`
with default `'auto'` — the exposed default is the JSON encoding
`'"auto"'` instead, so the exposed default is not the constructor's own
default as the claim states. -/
theorem claim_C1_counterexample :
    synthFitter floatRepr0 env0 sigOf0 spec0 = .ok c1Synth ∧
    SigParam.mk "opt" PKind.positionalOrKeyword (some (JVal.str "auto"))
      PyAnn.str ∉ c1Synth.newParams := by decide

theorem claim_C1_witness :
    SigParam.mk "opt" PKind.positionalOrKeyword (some (JVal.str "\"auto\""))
      PyAnn.str ∈ c1Synth.newParams := by
  have h := claim_C1 floatRepr0 env0 sigOf0 spec0 c1Synth ⟨"m", "C"⟩
    [⟨"opt", .positionalOrKeyword, .val (.str "auto")⟩]
    (by decide) (by decide) (by decide)
  have h2 := h.2 ⟨"opt", .positionalOrKeyword, .val (.str "auto")⟩
    (by decide) (.str "auto") rfl
  exact h2

/-- Claim C3: everything `_register_fitter` synthesizes is derived from
the last entry of `spec['steps']` and that step's kwargs in the
specification (and from no other step): two specifications that agree on
the last step entry and on the value stored under the last step's name
produce identical synthesized data. -/
theorem claim_C3 (floatRepr : Rat → String)
    (env : String → String → Except PyErr ClassRef)
    (sigOf : ClassRef → Except PyErr (List CParam))
    (o1 o2 : JObj) (a1 a2 : JArr) (l v : JVal) (s : String)
    (hs1 : o1.lookup "steps" = some (.arr a1))
    (hs2 : o2.lookup "steps" = some (.arr a2))
    (hlast1 : a1.toList.getLast? = some l)
    (hlast2 : a2.toList.getLast? = some l)
    (hix : arrIndex l 0 = .ok v) (hvs : asStrE v = .ok s)
    (hkw : o1.lookup s = o2.lookup s) :
    synthFitter floatRepr env sigOf (.obj o1) =
      synthFitter floatRepr env sigOf (.obj o2) := by
  have hl1 : specLastStep (.obj o1) = .ok l := by
    unfold specLastStep specSteps
    simp [hs1, hlast1]
  have hl2 : specLastStep (.obj o2) = .ok l := by
    unfold specLastStep specSteps
    simp [hs2, hlast2]
  unfold synthFitter
  rw [hl1, hl2]
  simp only [exceptOkBind]
  cases h1 : arrIndex l 1 with
  | error e => simp [h1]
  | ok v1 =>
    simp only [h1, exceptOkBind]
    cases h1s : asStrE v1 with
    | error e => simp [h1s]
    | ok cn =>
      simp only [h1s, exceptOkBind]
      rw [hix]
      simp only [exceptOkBind]
      rw [hvs]
      simp only [exceptOkBind, exceptPureEqOk]
      rw [hkw]

theorem claim_C3_witness :
    synthFitter floatRepr0 env0 sigOf0 (.obj o31) =
      synthFitter floatRepr0 env0 sigOf0 (.obj o32) :=
  claim_C3 floatRepr0 env0 sigOf0 o31 o32 a31 a32 pairB (.str "b") "b"
    (by decide) (by decide) (by decide) (by decide) (by decide) (by decide)
    (by decide)

theorem registerFitter_ok_inv (floatRepr : Rat → String)
    (env : String → String → Except PyErr ClassRef)
    (sigOf : ClassRef → Except PyErr (List CParam)) (name : String)
    (spec : JVal) (regs : List Registration)
    (h : registerFitter floatRepr env sigOf name spec = .ok regs) :
    ∃ fs, synthFitter floatRepr env sigOf spec = .ok fs ∧
      regs = [{ fname := "fit_classifier_" ++ name, inputs := .sequence,
                parameters := fs.qparams, outputs := ["classifier"],
                title := "Train the " ++ fs.className ++ " classifier.",
                description := "Create a " ++ fs.className ++
                  " classifier for reads" },
              { fname := "fit_classifier_" ++ name ++ "_paired_end",
                inputs := .pairedEnd,
                parameters := fs.qparams, outputs := ["classifier"],
                title := "Train the " ++ fs.className ++ " classifier.",
                description := "Create a " ++ fs.className ++
                  " classifier for paired-end reads" }] := by
  unfold registerFitter at h
  cases hs : synthFitter floatRepr env sigOf spec with
  | error e => rw [hs] at h; simp at h
  | ok fs =>
    rw [hs] at h
    simp only [exceptOkBind, exceptPureEqOk] at h
    exact ⟨fs, rfl, by cases h; rfl⟩

theorem mapM_registerFitter_len (floatRepr : Rat → String)
    (env : String → String → Except PyErr ClassRef)
    (sigOf : ClassRef → Except PyErr (List CParam)) :
    ∀ (fitters : List (String × JVal)) (rs : List (List Registration)),
    fitters.mapM (fun nf => registerFitter floatRepr env sigOf nf.1 nf.2) =
      .ok rs → rs.flatten.length = 2 * fitters.length := by
  intro fitters
  induction fitters with
  | nil =>
    intro rs h
    simp [List.mapM, List.mapM.loop] at h
    subst h
    simp
  | cons nf tl ih =>
    intro rs h
    rw [List.mapM_cons] at h
    cases hh : registerFitter floatRepr env sigOf nf.1 nf.2 with
    | error e => rw [hh] at h; simp at h
    | ok regs =>
      rw [hh] at h
      cases ht : tl.mapM (fun nf => registerFitter floatRepr env sigOf nf.1 nf.2) with
      | error e => rw [ht] at h; simp at h
      | ok rs2 =>
        rw [ht] at h
        simp at h
        obtain ⟨fs, -, hregs⟩ :=
          registerFitter_ok_inv floatRepr env sigOf nf.1 nf.2 regs hh
        subst hregs
        rw [← h]
        simp [ih rs2 ht, Nat.mul_succ]

/-- Claim C4 (amended): for every entry of the predefined fitter list on
which `_register_fitter` succeeds, one fitter is synthesized but it is
registered twice with the workflow framework — once as
`fit_classifier_<name>` for single-end reads and once as
`fit_classifier_<name>_paired_end` for paired-end reads, with the same
parameters — so the loop over `_specific_fitters` performs two
registrations per entry, not one. -/
theorem claim_C4 :
    (∀ (floatRepr : Rat → String)
       (env : String → String → Except PyErr ClassRef)
       (sigOf : ClassRef → Except PyErr (List CParam)) (name : String)
       (spec : JVal) (regs : List Registration),
       registerFitter floatRepr env sigOf name spec = .ok regs →
       regs.length = 2 ∧
       regs.map Registration.fname =
         ["fit_classifier_" ++ name, "fit_classifier_" ++ name ++ "_paired_end"] ∧
       regs.map Registration.inputs = [.sequence, .pairedEnd] ∧
       ∀ r1 ∈ regs, ∀ r2 ∈ regs,
         Registration.parameters r1 = Registration.parameters r2) ∧
    (∀ (floatRepr : Rat → String)
       (env : String → String → Except PyErr ClassRef)
       (sigOf : ClassRef → Except PyErr (List CParam))
       (fitters : List (String × JVal)) (regs : List Registration),
       registerAllFitters floatRepr env sigOf fitters = .ok regs →
       regs.length = 2 * fitters.length) := by
  constructor
  · intro floatRepr env sigOf name spec regs h
    obtain ⟨fs, -, hregs⟩ :=
      registerFitter_ok_inv floatRepr env sigOf name spec regs h
    subst hregs
    refine ⟨rfl, rfl, rfl, ?_⟩
    intro r1 h1 r2 h2
    simp [List.mem_cons] at h1 h2
    rcases h1 with h1 | h1 <;> rcases h2 with h2 | h2 <;> subst h1 <;>
      subst h2 <;> rfl
  · intro floatRepr env sigOf fitters regs h
    unfold registerAllFitters at h
    cases hm : fitters.mapM
        (fun nf => registerFitter floatRepr env sigOf nf.1 nf.2) with
    | error e => rw [hm] at h; simp at h
    | ok rs =>
      rw [hm] at h
      simp at h
      rw [← h]
      exact mapM_registerFitter_len floatRepr env sigOf fitters rs hm

/-- Claim C4 counterexample: registering the predefined entry
`("x", spec0)` performs two registrations, not exactly one. -/
theorem claim_C4_counterexample :
    registerFitter floatRepr0 env0 sigOf0 "x" spec0 = .ok [c4reg1, c4reg2] ∧
    ([c4reg1, c4reg2] : List Registration).length ≠ 1 := by decide

theorem claim_C4_witness :
    ([c4reg1, c4reg2] : List Registration).length = 2 ∧
    [c4reg1, c4reg2].map Registration.fname =
      ["fit_classifier_x", "fit_classifier_x_paired_end"] :=
  ⟨(claim_C4.1 floatRepr0 env0 sigOf0 "x" spec0 [c4reg1, c4reg2]
      (by decide)).1,
   (claim_C4.1 floatRepr0 env0 sigOf0 "x" spec0 [c4reg1, c4reg2]
      (by decide)).2.1⟩

theorem decodeKwargs_error (jsonLoads : String → Except PyErr JVal) :
    ∀ (kwargs : List (String × JVal)) (e : PyErr),
    decodeKwargs jsonLoads kwargs = .error e →
    ∃ kv ∈ kwargs, loadParam jsonLoads kv.2 = .error e := by
  intro kwargs
  induction kwargs with
  | nil =>
    intro e h
    simp [decodeKwargs, List.mapM, List.mapM.loop] at h
  | cons kv tl ih =>
    intro e h
    unfold decodeKwargs at h ih
    rw [List.mapM_cons] at h
    cases hl : loadParam jsonLoads kv.2 with
    | error e2 =>
      rw [hl] at h
      simp at h
      exact ⟨kv, List.mem_cons_self kv tl, by rw [hl, h]⟩
    | ok w =>
      rw [hl] at h
      simp only [exceptOkBind] at h
      cases ht : tl.mapM (fun kv => do
          let w ← loadParam jsonLoads kv.2
          pure (kv.1, w)) with
      | error e2 =>
        rw [ht] at h
        simp at h
        obtain ⟨kv2, hm, he⟩ := ih e2 ht
        exact ⟨kv2, List.mem_cons_of_mem kv hm, by rw [he, h]⟩
      | ok l2 => rw [ht] at h; simp at h

theorem specLastStepName_ok_obj (spec : JVal) (s : String)
    (h : specLastStepName spec = .ok s) : ∃ o, spec = JVal.obj o := by
  unfold specLastStepName at h
  cases hls : specLastStep spec with
  | error e => rw [hls] at h; simp at h
  | ok l =>
    obtain ⟨steps, hsp, -⟩ := specLastStep_ok_inv spec l hls
    obtain ⟨o, a, hobj, -, -⟩ := specSteps_ok_inv spec steps hsp
    exact ⟨o, hobj⟩

/-- Claim C5: every error raised by `fit_classifier`, `classify` or a
synthesized fitter is propagated unchanged from the JSON parser or from
the wrapped calls (class loading and pipeline construction inside
`pipelineFromSpec`, `fit_pipeline`, `predict`, spec subscripting); none is
wrapped in a custom error type, and in particular when the classifier
specification is not valid JSON, `fit_classifier` propagates the JSON
parser's error unchanged. -/
theorem claim_C5 :
    (∀ (R T F : Type) (jsonLoads : String → Except PyErr JVal)
       (env : String → String → Except PyErr ClassRef)
       (fit_pipeline : R → T → SkPipeline → List (String × JVal) → Except PyErr F)
       (r : R) (t : T) (cs : String) (wl : Int) (ts : String) (td : Int)
       (mo : Bool) (e : PyErr),
       jsonLoads cs = .error e →
       fit_classifier jsonLoads env fit_pipeline r t cs wl ts td mo = .error e) ∧
    (∀ (R T F : Type) (jsonLoads : String → Except PyErr JVal)
       (env : String → String → Except PyErr ClassRef)
       (fit_pipeline : R → T → SkPipeline → List (String × JVal) → Except PyErr F)
       (r : R) (t : T) (cs : String) (wl : Int) (ts : String) (td : Int)
       (mo : Bool) (e : PyErr),
       fit_classifier jsonLoads env fit_pipeline r t cs wl ts td mo = .error e →
       jsonLoads cs = .error e ∨
       (∃ spec, jsonLoads cs = .ok spec ∧ pipelineFromSpec env spec = .error e) ∨
       (∃ spec pl, jsonLoads cs = .ok spec ∧ pipelineFromSpec env spec = .ok pl ∧
          fit_pipeline r t pl (mkParams wl ts td mo) = .error e)) ∧
    (∀ (R F I V : Type)
       (predict : R → F → List (String × JVal) → Except PyErr (List I × List V))
       (reads : R) (classifier : List (String × RVal F)) (pl : F)
       (ps : List (String × JVal)) (e : PyErr),
       lookupStr classifier "pipeline" = some (RVal.pipe pl) →
       lookupStr classifier "params" = some (RVal.params ps) →
       classify predict reads classifier = .error e →
       predict reads pl ps = .error e) ∧
    (∀ (R T F : Type) (jsonLoads : String → Except PyErr JVal)
       (env : String → String → Except PyErr ClassRef)
       (fit_pipeline : R → T → SkPipeline → List (String × JVal) → Except PyErr F)
       (spec : JVal) (r : R) (t : T) (wl : Int) (ts : String) (td : Int)
       (mo : Bool) (kwargs : List (String × JVal)) (e : PyErr),
       generic_fitter jsonLoads env fit_pipeline spec r t wl ts td mo kwargs =
         .error e →
       (∃ kv ∈ kwargs, loadParam jsonLoads kv.2 = .error e) ∨
       specLastStepName spec = .error e ∨
       (∃ sp2, pipelineFromSpec env sp2 = .error e) ∨
       (∃ pl params, fit_pipeline r t pl params = .error e)) := by
  refine ⟨?_, ?_, ?_, ?_⟩
  · intro R T F jsonLoads env fit_pipeline r t cs wl ts td mo e hj
    unfold fit_classifier
    simp [hj]
  · intro R T F jsonLoads env fit_pipeline r t cs wl ts td mo e h
    unfold fit_classifier at h
    cases hj : jsonLoads cs with
    | error e2 => rw [hj] at h; simp at h; exact Or.inl (by rw [h])
    | ok spec =>
      rw [hj] at h
      simp only [exceptOkBind] at h
      cases hp : pipelineFromSpec env spec with
      | error e2 =>
        rw [hp] at h
        simp at h
        exact Or.inr (Or.inl ⟨spec, rfl, by rw [hp, h]⟩)
      | ok pl =>
        rw [hp] at h
        simp only [exceptOkBind] at h
        cases hf : fit_pipeline r t pl (mkParams wl ts td mo) with
        | error e2 =>
          rw [hf] at h
          simp at h
          exact Or.inr (Or.inr ⟨spec, pl, rfl, hp, by rw [hf, h]⟩)
        | ok f => rw [hf] at h; simp at h
  · intro R F I V predict reads classifier pl ps e hpl hps h
    unfold classify recordGet at h
    rw [hpl, hps] at h
    simp only [exceptOkBind, exceptPureEqOk] at h
    cases hp : predict reads pl ps with
    | error e2 => rw [hp] at h; simp at h; rw [h]
    | ok res => rw [hp] at h; simp at h
  · intro R T F jsonLoads env fit_pipeline spec r t wl ts td mo kwargs e h
    unfold generic_fitter at h
    cases hd : decodeKwargs jsonLoads kwargs with
    | error e2 =>
      rw [hd] at h
      simp at h
      exact Or.inl (by
        obtain ⟨kv, hm, he⟩ := decodeKwargs_error jsonLoads kwargs e2 hd
        exact ⟨kv, hm, by rw [he, h]⟩)
    | ok kw2 =>
      rw [hd] at h
      simp only [exceptOkBind] at h
      cases hln : specLastStepName spec with
      | error e2 =>
        rw [hln] at h
        simp at h
        exact Or.inr (Or.inl (by rw [h]))
      | ok ln =>
        rw [hln] at h
        simp only [exceptOkBind] at h
        obtain ⟨o, hobj⟩ := specLastStepName_ok_obj spec ln hln
        subst hobj
        simp only [exceptOkBind, exceptPureEqOk] at h
        cases hp : pipelineFromSpec env
            (JVal.obj (o.assign ln (.obj (JObj.ofList kw2)))) with
        | error e2 =>
          rw [hp] at h
          simp at h
          exact Or.inr (Or.inr (Or.inl ⟨_, by rw [hp, h]⟩))
        | ok pl =>
          rw [hp] at h
          simp only [exceptOkBind] at h
          cases hf : fit_pipeline r t pl (mkParams wl ts td mo) with
          | error e2 =>
            rw [hf] at h
            simp at h
            exact Or.inr (Or.inr (Or.inr ⟨pl, _, by rw [hf, h]⟩))
          | ok f => rw [hf] at h; simp at h

theorem claim_C5_witness :
    fit_classifier jl0 env0 fp0 () () "nonsense" 8 "" (-1) false =
      .error (.jsonDecodeError "Expecting value: line 1 column 1 (char 0)") :=
  claim_C5.1 Unit Unit Unit jl0 env0 fp0 () () "nonsense" 8 "" (-1) false
    (.jsonDecodeError "Expecting value: line 1 column 1 (char 0)") rfl

theorem genericFitterSpecStep_read (hp : Heap) (a : Nat) (k : String)
    (kw : JObj) (h2 : Heap) (a2 : Nat)
    (hs : genericFitterSpecStep hp a k kw = some (h2, a2)) :
    a2 = hp.length ∧ a < hp.length ∧ Heap.read h2 a = Heap.read hp a ∧
    (∀ d, Heap.read hp a = some d →
      Heap.read h2 a2 = some (d.assign k (.obj kw))) := by
  unfold genericFitterSpecStep heapDeepcopy at hs
  cases hg : hp[a]? with
  | none => rw [hg] at hs; simp at hs
  | some d =>
    rw [hg] at hs
    simp only at hs
    have hlt : a < hp.length := by
      obtain ⟨hl, -⟩ := List.getElem?_eq_some.mp hg
      exact hl
    have hcat : (hp ++ [d])[hp.length]? = some d :=
      List.getElem?_concat_length hp d
    rw [hcat] at hs
    simp only [Option.some.injEq, Prod.mk.injEq] at hs
    obtain ⟨hh2, ha2⟩ := hs
    subst hh2
    subst ha2
    refine ⟨rfl, hlt, ?_, ?_⟩
    · unfold Heap.read
      rw [List.getElem?_set_ne (by omega), List.getElem?_append,
        if_pos hlt, hg]
    · intro d2 hd2
      unfold Heap.read at hd2 ⊢
      rw [hg] at hd2
      cases hd2
      rw [List.getElem?_set_eq_of_lt]
      simp [List.length_append]

/-- Claim C7: a synthesized fitter leaves the pipeline specification
captured at registration time unchanged: the spec-handling statements
deep-copy the captured dict to a fresh cell and mutate only the copy, so
across any sequence of invocations the cell holding the original
specification keeps its value, while each invocation's own `this_spec`
holds the specification with the caller's kwargs substituted for the
final step's kwargs. -/
theorem claim_C7 :
    (∀ (h : Heap) (a : Nat) (calls : List (String × JObj)),
       Heap.read (runInvocations h a calls) a = Heap.read h a) ∧
    (∀ (h : Heap) (a : Nat) (k : String) (kw : JObj) (d : JObj)
       (h2 : Heap) (a2 : Nat),
       Heap.read h a = some d →
       genericFitterSpecStep h a k kw = some (h2, a2) →
       a2 ≠ a ∧ Heap.read h2 a = some d ∧
         Heap.read h2 a2 = some (d.assign k (.obj kw))) := by
  constructor
  · intro h a calls
    induction calls generalizing h with
    | nil => rfl
    | cons c rest ih =>
      unfold runInvocations
      cases hs : genericFitterSpecStep h a c.1 c.2 with
      | none => exact ih h
      | some p =>
        obtain ⟨-, -, hread, -⟩ :=
          genericFitterSpecStep_read h a c.1 c.2 p.1 p.2 (by rw [hs])
        rw [ih p.1, hread]
  · intro h a k kw d h2 a2 hd hs
    obtain ⟨ha2, hlt, hread, hcopy⟩ :=
      genericFitterSpecStep_read h a k kw h2 a2 hs
    refine ⟨by omega, by rw [hread, hd], hcopy d hd⟩

theorem claim_C7_witness :
    (1 : Nat) ≠ 0 ∧ Heap.read c7h2 0 = some o0 ∧
      Heap.read c7h2 1 = some (JObj.assign o0 "cls" (.obj kwObj)) :=
  claim_C7.2 [o0] 0 "cls" kwObj o0 c7h2 1 rfl (by decide)

/-- Claim C6: on every invocation that returns, `fit_classifier` and every
synthesized fitter return a dict with exactly the keys `params` and
`pipeline`, where `params` maps exactly `word_length`,
`taxonomy_separator`, `taxonomy_depth` and `multioutput` to the
corresponding argument values and `pipeline` is the fitted pipeline
returned by `fit_pipeline`. -/
theorem claim_C6 :
    (∀ (R T F : Type) (jsonLoads : String → Except PyErr JVal)
       (env : String → String → Except PyErr ClassRef)
       (fit_pipeline : R → T → SkPipeline → List (String × JVal) → Except PyErr F)
       (r : R) (t : T) (cs : String) (wl : Int) (ts : String) (td : Int)
       (mo : Bool) (spec : JVal) (pl : SkPipeline) (f : F),
       jsonLoads cs = .ok spec →
       pipelineFromSpec env spec = .ok pl →
       fit_pipeline r t pl (mkParams wl ts td mo) = .ok f →
       fit_classifier jsonLoads env fit_pipeline r t cs wl ts td mo =
         .ok [("params", RVal.params
                 [("word_length", .int wl), ("taxonomy_separator", .str ts),
                  ("taxonomy_depth", .int td), ("multioutput", .bool mo)]),
              ("pipeline", RVal.pipe f)]) ∧
    (∀ (R T F : Type) (jsonLoads : String → Except PyErr JVal)
       (env : String → String → Except PyErr ClassRef)
       (fit_pipeline : R → T → SkPipeline → List (String × JVal) → Except PyErr F)
       (o : JObj) (r : R) (t : T) (wl : Int) (ts : String) (td : Int)
       (mo : Bool) (kwargs kw2 : List (String × JVal)) (ln : String)
       (pl : SkPipeline) (f : F),
       decodeKwargs jsonLoads kwargs = .ok kw2 →
       specLastStepName (JVal.obj o) = .ok ln →
       pipelineFromSpec env
         (JVal.obj (o.assign ln (.obj (JObj.ofList kw2)))) = .ok pl →
       fit_pipeline r t pl (mkParams wl ts td mo) = .ok f →
       generic_fitter jsonLoads env fit_pipeline (JVal.obj o) r t wl ts td mo
         kwargs =
         .ok [("params", RVal.params
                 [("word_length", .int wl), ("taxonomy_separator", .str ts),
                  ("taxonomy_depth", .int td), ("multioutput", .bool mo)]),
              ("pipeline", RVal.pipe f)]) := by
  constructor
  · intro R T F jsonLoads env fit_pipeline r t cs wl ts td mo spec pl f
      hj hp hf
    simp only [mkParams] at hf
    unfold fit_classifier
    simp [hj, hp, hf, mkParams]
  · intro R T F jsonLoads env fit_pipeline o r t wl ts td mo kwargs kw2 ln
      pl f hd hln hp hf
    simp only [mkParams] at hf
    unfold generic_fitter
    simp [hd, hln, hp, hf, mkParams]

theorem claim_C6_witness :
    fit_classifier jlSpec env0 fp0 () () "SPEC" 8 "" (-1) false =
      .ok [("params", RVal.params
              [("word_length", .int 8), ("taxonomy_separator", .str ""),
               ("taxonomy_depth", .int (-1)), ("multioutput", .bool false)]),
           ("pipeline", RVal.pipe ())] :=
  claim_C6.1 Unit Unit Unit jlSpec env0 fp0 () () "SPEC" 8 "" (-1) false
    spec0 ⟨[("cls", ⟨⟨"m", "C"⟩, []⟩)]⟩ () rfl (by decide) rfl

/-- Claim C8: for every keyword argument of a synthesized fitter, the
value is first JSON-decoded; a decode failure (`JSONDecodeError`) or a
non-string value (`TypeError`) leaves the original value in place, so the
decoding step itself never fails on them. -/
theorem claim_C8 :
    (∀ (jsonLoads : String → Except PyErr JVal) (s : String) (r : JVal),
       jsonLoads s = .ok r → loadParam jsonLoads (.str s) = .ok r) ∧
    (∀ (jsonLoads : String → Except PyErr JVal) (s : String) (e : PyErr),
       jsonLoads s = .error e → jsonCatchable e = true →
       loadParam jsonLoads (.str s) = .ok (.str s)) ∧
    (∀ (jsonLoads : String → Except PyErr JVal) (v : JVal),
       (∀ s, v ≠ JVal.str s) → loadParam jsonLoads v = .ok v) ∧
    (∀ (jsonLoads : String → Except PyErr JVal)
       (kwargs : List (String × JVal)),
       (∀ kv ∈ kwargs, loadParam jsonLoads kv.2 = .ok kv.2) →
       decodeKwargs jsonLoads kwargs = .ok kwargs) := by
  refine ⟨?_, ?_, ?_, ?_⟩
  · intro jsonLoads s r h
    simp [loadParam, h]
  · intro jsonLoads s e h hc
    simp [loadParam, h, hc]
  · intro jsonLoads v h
    cases v with
    | str s => exact absurd rfl (h s)
    | null => rfl
    | bool b => rfl
    | int n => rfl
    | float q => rfl
    | arr a => rfl
    | obj o => rfl
  · intro jsonLoads kwargs
    induction kwargs with
    | nil => intro h; rfl
    | cons kv tl ih =>
      intro h
      unfold decodeKwargs at ih ⊢
      rw [List.mapM_cons]
      rw [h kv (List.mem_cons_self kv tl)]
      rw [ih (fun kv2 hm => h kv2 (List.mem_cons_of_mem kv hm))]
      simp

theorem claim_C8_witness :
    loadParam jl0 (.str "definitely not json") = .ok (.str "definitely not json") :=
  claim_C8.2.1 jl0 "definitely not json"
    (.jsonDecodeError "Expecting value: line 1 column 1 (char 0)") rfl rfl

/-- Claim C9: for a constructor parameter whose effective default is not
of type int, float or bool, the exposed default is the JSON encoding of
the effective default, and the fitter's kwargs-decoding step maps it back
through `json.loads`, so when `json.loads (json.dumps d) = d` the round
trip restores the original default. -/
theorem claim_C9 (floatRepr : Rat → String)
    (jsonLoads : String → Except PyErr JVal)
    (defaults : List (String × JVal)) (p : CParam) (pd d : JVal)
    (hpd : p.default = CDefault.val pd)
    (hd : d = (lookupStr defaults p.name).getD pd)
    (hi : annOf d ≠ PyAnn.int) (hf : annOf d ≠ PyAnn.float)
    (hb : annOf d ≠ PyAnn.bool) :
    exposeParam floatRepr defaults p =
      some ⟨p.name, p.kind, some (.str (JVal.dumps floatRepr d)), .str⟩ ∧
    (jsonLoads (JVal.dumps floatRepr d) = .ok d →
     loadParam jsonLoads (.str (JVal.dumps floatRepr d)) = .ok d) := by
  have hann : annOf d = PyAnn.str := by
    cases d <;> simp_all [annOf]
  constructor
  · unfold exposeParam
    rw [hpd]
    simp [← hd, hann]
  · intro hj
    simp [loadParam, hj]

theorem claim_C9_witness :
    exposeParam floatRepr0 [] p9 =
      some ⟨"opt", .positionalOrKeyword, some (.str "null"), .str⟩ ∧
    loadParam jl9 (.str "null") = .ok .null := by
  have h := claim_C9 floatRepr0 jl9 [] p9 .null .null rfl (by decide)
    (by decide) (by decide) (by decide)
  exact ⟨h.1, h.2 (by decide)⟩

/-- Claim C10: for every reads input and classifier record, `classify`
returns a series whose values are the classifications and whose index is
the sequence ids returned by `predict` on the record's pipeline with the
record's params, named `taxonomy` with index name `Feature ID`. -/
theorem claim_C10 (R F I V : Type)
    (predict : R → F → List (String × JVal) → Except PyErr (List I × List V))
    (reads : R) (classifier : List (String × RVal F)) (pl : F)
    (ps : List (String × JVal)) (ids : List I) (cls : List V)
    (hpl : lookupStr classifier "pipeline" = some (RVal.pipe pl))
    (hps : lookupStr classifier "params" = some (RVal.params ps))
    (hp : predict reads pl ps = .ok (ids, cls)) :
    classify predict reads classifier =
      .ok { values := cls, index := ids,
            name := some "taxonomy", indexName := some "Feature ID" } := by
  unfold classify recordGet
  rw [hpl, hps]
  simp [hp]

theorem claim_C10_witness :
    classify predict0 () classifier0 =
      .ok { values := ["taxA"], index := ["s1"],
            name := some "taxonomy", indexName := some "Feature ID" } :=
  claim_C10 Unit Unit String String predict0 () classifier0 ()
    (mkParams 8 "" (-1) false) ["s1"] ["taxA"] (by decide) (by decide) rfl

end Q2FC
